import Mathlib

/-
Verification of the rebalance-calendar / composite-rank alpha-weighting core of
jlquinn/qstrader against its specification.

Shallow embedding of:
  * src/examples/dbtrx.py       — class DBTransactionAlphaModel
  * src/qstrader/system/rebalance/monthly.py — class MonthlyRebalance

Modelling conventions:
  * Python floats are modelled as ℚ (all quantities involved are produced by
    field arithmetic on small integers and input scalars; no float-rounding
    behaviour is claimed by the spec).
  * Python dicts are modelled as insertion-ordered association lists with
    unique keys; `d[k] = v` updates in place or appends (pyDictSet).
  * `sorted(..., key=operator.itemgetter(1))` is modelled by a stable
    insertion sort on the second component; `reverse=True` reverses the
    comparison (CPython's documented semantics, stable in both directions).
  * Python exceptions are modelled with `Except PyErr`.
  * pandas timestamps are modelled as day numbers (ℕ, days since
    1 Jan of year 0, proleptic Gregorian; day 0 is a Saturday) and
    seconds-of-day; a full timestamp is day * 86400 + seconds.
-/

/-- Python exceptions that the embedded code can raise, plus the spec's
`ConfigurationError` (which names an error class the source never raises;
it is needed to state spec claims about error kinds). -/
inductive PyErr where
  | assertionError
  | zeroDivisionError
  | configurationError
  deriving DecidableEq, Repr

instance [DecidableEq ε] [DecidableEq α] : DecidableEq (Except ε α) := fun x y =>
  match x, y with
  | .ok a, .ok b =>
      if h : a = b then .isTrue (by rw [h])
      else .isFalse (by intro hc; cases hc; exact h rfl)
  | .error a, .error b =>
      if h : a = b then .isTrue (by rw [h])
      else .isFalse (by intro hc; cases hc; exact h rfl)
  | .ok _, .error _ => .isFalse (by intro hc; cases hc)
  | .error _, .ok _ => .isFalse (by intro hc; cases hc)

/-! ### Python runtime primitives -/

/-- Insert `x` into `l`, placing it after every `y` with `le y x`.
Used left-to-right this yields exactly a stable sort. -/
def insertSorted (le : α → α → Bool) (x : α) : List α → List α
  | [] => [x]
  | y :: ys => if le y x then y :: insertSorted le x ys else x :: y :: ys

/-- Stable sort: elements are inserted in their original order, each placed
after all earlier elements that compare `le` to it (ties keep original
order).  Models CPython's stable `sorted`. -/
def pySorted (le : α → α → Bool) (l : List α) : List α :=
  l.foldl (fun acc x => insertSorted le x acc) []

/-- Python list slice `xs[:n]` for an `int` bound `n`: `take n` when
`n ≥ 0`, and all but the last `|n|` elements when `n < 0`. -/
def pySlice (xs : List α) (n : ℤ) : List α :=
  if 0 ≤ n then xs.take n.toNat else xs.take (xs.length - (-n).toNat)

/-- The keys of an association-list dict, in insertion order. -/
def pyDictKeys (d : List (String × β)) : List String :=
  d.map Prod.fst

/-- Python `d[k] = v`: when the key is present (Python dict keys are
unique, so at most once), replace its value in place; otherwise append a
new entry at the end, preserving insertion order. -/
def pyDictSet : List (String × β) → String → β → List (String × β)
  | [], k, v => [(k, v)]
  | p :: rest, k, v =>
      if p.1 = k then (k, v) :: rest else p :: pyDictSet rest k v

/-- Python `d[k]` as an option: the value at the (unique) entry with key
`k`, `none` when the key is absent (where Python raises KeyError). -/
def pyDictLookup : List (String × β) → String → Option β
  | [], _ => none
  | p :: rest, k => if p.1 = k then some p.2 else pyDictLookup rest k

/-- The dict comprehension `{a : f a for a in ks}` (and, with a non-empty
initial dict `w`, a sequence of `w[a] = f a` assignments in order). -/
def pyDictInsertAll (w : List (String × β)) (ks : List String) (f : String → β) :
    List (String × β) :=
  ks.foldl (fun d a => pyDictSet d a (f a)) w

/-- `{a : v for a in ks}` — constant-valued dict comprehension. -/
def pyDictOf (ks : List String) (v : β) : List (String × β) :=
  pyDictInsertAll [] ks (fun _ => v)

/-- Sum of the values of a dict. -/
def sumVals (d : List (String × ℚ)) : ℚ :=
  (d.map Prod.snd).sum

/-! ### Data model of src/examples/dbtrx.py

The alpha model's collaborators (`MomentumSignal`, `SignalsCollection`,
`DynamicUniverse`) live outside src/; the embedded model only consumes the
exact surface dbtrx.py reads from them: `signals[name].assets`,
`signals[name](asset, lookback)`, `signals.warmup`, and
`universe.get_assets(dt)`.  They are therefore embedded as records of
those observables, quantified over in the theorems. -/

/-- A signal provider as consumed by dbtrx.py: an ordered asset list and a
scalar query `signal(asset, lookback)`. -/
structure MomentumSignal where
  assets : List String
  value : String → ℕ → ℚ

/-- The `SignalsCollection` surface used by dbtrx.py: the two named signals
`'gain6m'` and `'gain5d'`, plus the `warmup` property. -/
structure SignalsCollection where
  gain6m : MomentumSignal
  gain5d : MomentumSignal
  warmup : ℕ

/-- The universe surface used by dbtrx.py: `get_assets(dt)`. -/
structure Universe where
  get_assets : ℕ → List String

/-- The state of a `DBTransactionAlphaModel` instance as assigned by
`__init__` (dbtrx.py lines 27-59).  `univ` embeds the `universe` attribute
(`universe` is a Lean keyword).  `data_handler` is stored but never read by
the embedded logic, exactly as in the source. -/
structure DBTransactionAlphaModel where
  signals : SignalsCollection
  mom_lookback : ℕ
  mom_top_n : ℤ
  univ : Universe
  data_handler : Unit
  gain6m_lookback : ℕ
  gain5d_lookback : ℕ

namespace DBTransactionAlphaModel

/-- `DBTransactionAlphaModel.__init__` (dbtrx.py lines 27-59): stores its
arguments and the two hard-coded lookbacks.  It performs no validation and
cannot fail; the `Except` result type records that no exception is raised. -/
def init (signals : SignalsCollection) (mom_lookback : ℕ) (mom_top_n : ℤ)
    (universe' : Universe) (data_handler : Unit) :
    Except PyErr DBTransactionAlphaModel :=
  Except.ok
    { signals := signals
      mom_lookback := mom_lookback
      mom_top_n := mom_top_n
      univ := universe'
      data_handler := data_handler
      gain6m_lookback := 126
      gain5d_lookback := 5 }

/-- `all_6m` (dbtrx.py lines 131-135): dict comprehension over
`signals['gain6m'].assets` of the 6-month gain signal values. -/
def all6mOf (m : DBTransactionAlphaModel) : List (String × ℚ) :=
  pyDictInsertAll [] m.signals.gain6m.assets
    (fun asset => m.signals.gain6m.value asset m.gain6m_lookback)

/-- `all_5d` (dbtrx.py lines 136-140). -/
def all5dOf (m : DBTransactionAlphaModel) : List (String × ℚ) :=
  pyDictInsertAll [] m.signals.gain5d.assets
    (fun asset => m.signals.gain5d.value asset m.gain5d_lookback)

/-- `heat` (dbtrx.py lines 145-151): asset names sorted by 6-month gain,
descending (`reverse=True`), stable. -/
def heatOf (m : DBTransactionAlphaModel) : List String :=
  (pySorted (fun a b => decide (b.2 ≤ a.2)) (all6mOf m)).map Prod.fst

/-- `chill` (dbtrx.py lines 152-158): asset names sorted by 5-day gain,
ascending, stable. -/
def chillOf (m : DBTransactionAlphaModel) : List String :=
  (pySorted (fun a b => decide (a.2 ≤ b.2)) (all5dOf m)).map Prod.fst

/-- `heatmap` (dbtrx.py lines 160-163): `zip(heat, range(1, len(heat)+1))`. -/
def heatmapOf (m : DBTransactionAlphaModel) : List (String × ℕ) :=
  (heatOf m).zip (List.range' 1 (heatOf m).length)

/-- `chillmap` (dbtrx.py lines 164-167). -/
def chillmapOf (m : DBTransactionAlphaModel) : List (String × ℕ) :=
  (chillOf m).zip (List.range' 1 (chillOf m).length)

/-- `heatwt = 0.5` (dbtrx.py line 169). -/
def heatwt : ℚ := 1/2

/-- Rank lookup `heatmap[sym]` / `chillmap[sym]` (dbtrx.py line 171).
In the source a missing key would raise KeyError; the preceding
`assert assets6m == assets5d` makes every looked-up key present, so the
`getD 0` default is unreachable. -/
def rankLookup (l : List (String × ℕ)) (k : String) : ℕ :=
  (pyDictLookup l k).getD 0

/-- `dbtrxmap` (dbtrx.py lines 170-173): per asset, the weighted average
`heatwt * heatmap[sym] + (1-heatwt) * chillmap[sym]`, iterated in `heat`
order. -/
def dbtrxmapOf (m : DBTransactionAlphaModel) : List (String × ℚ) :=
  (heatOf m).map (fun sym =>
    (sym, heatwt * (rankLookup (heatmapOf m) sym : ℚ)
      + (1 - heatwt) * (rankLookup (chillmapOf m) sym : ℚ)))

/-- `dbtrxlist` (dbtrx.py lines 176-182): asset names of `dbtrxmap` sorted
ascending (smallest blended rank first), stable. -/
def dbtrxlistOf (m : DBTransactionAlphaModel) : List String :=
  (pySorted (fun a b => decide (a.2 ≤ b.2)) (dbtrxmapOf m)).map Prod.fst

/-- `dbtrxlist[:self.mom_top_n]` (dbtrx.py line 193): the selected assets. -/
def topAssetsOf (m : DBTransactionAlphaModel) : List String :=
  pySlice (dbtrxlistOf m) m.mom_top_n

/-- `DBTransactionAlphaModel._dbtransaction_asset` (dbtrx.py lines 102-193).
First `assert(assets6m == assets5d)` (line 127), then the rank/blend/sort
pipeline above, returning the first `mom_top_n` names.  `dt` is received but
never read by the body, exactly as in the source. -/
def dbtransaction_asset (m : DBTransactionAlphaModel) (dt : ℕ) :
    Except PyErr (List String) :=
  if m.signals.gain6m.assets = m.signals.gain5d.assets then
    Except.ok (topAssetsOf m)
  else
    Except.error PyErr.assertionError

/-- The loop body of `_generate_signals` (dbtrx.py lines 219-220):
`for asset in top_assets: weights[asset] = 1.0 / self.mom_top_n`.
Python raises ZeroDivisionError at the first iteration when
`mom_top_n == 0` (never reached: the slice is then empty). -/
def assignTopWeights (n : ℤ) (top : List String) (weights : List (String × ℚ)) :
    Except PyErr (List (String × ℚ)) :=
  top.foldlM (fun w asset =>
    if n = 0 then Except.error PyErr.zeroDivisionError
    else Except.ok (pyDictSet w asset (1 / (n : ℚ)))) weights

/-- `DBTransactionAlphaModel._generate_signals` (dbtrx.py lines 196-221). -/
def generate_signals (m : DBTransactionAlphaModel) (dt : ℕ)
    (weights : List (String × ℚ)) : Except PyErr (List (String × ℚ)) := do
  let top_assets ← dbtransaction_asset m dt
  assignTopWeights m.mom_top_n top_assets weights

/-- `DBTransactionAlphaModel.__call__` (dbtrx.py lines 223-250): build the
all-zero dict over the current universe members, then overwrite via
`_generate_signals` only when `signals.warmup >= mom_lookback`. -/
def call (m : DBTransactionAlphaModel) (dt : ℕ) :
    Except PyErr (List (String × ℚ)) :=
  let assets := m.univ.get_assets dt
  let weights := pyDictOf assets (0 : ℚ)
  if m.mom_lookback ≤ m.signals.warmup then generate_signals m dt weights
  else Except.ok weights

end DBTransactionAlphaModel

/-! ### Data model of src/qstrader/system/rebalance/monthly.py

Dates are day numbers: day 0 is 1 January of year 0 (proleptic Gregorian),
which is a Saturday; with weekday 0 = Monday, `weekday d = (d + 5) % 7`.
pandas' `BDay` weekmask is Monday-Friday (no holiday calendar). -/

/-- Gregorian leap-year rule, as used by pandas' calendar. -/
def isLeap (y : ℕ) : Bool :=
  (y % 4 == 0 && y % 100 != 0) || (y % 400 == 0)

/-- Length of month index `m` (`m = year * 12 + month0`, `month0 ∈ 0..11`,
month 0 of year 0 being January of year 0). -/
def monthLen (m : ℕ) : ℕ :=
  if m % 12 = 1 then (if isLeap (m / 12) then 29 else 28)
  else if m % 12 = 3 ∨ m % 12 = 5 ∨ m % 12 = 8 ∨ m % 12 = 10 then 30
  else 31

/-- Day number of the first day of month index `m`. -/
def firstDayOfMonth : ℕ → ℕ
  | 0 => 0
  | m + 1 => firstDayOfMonth m + monthLen m

/-- The (unique) month index whose days contain day `d`. -/
def monthOfDay (d : ℕ) : ℕ :=
  Nat.findGreatest (fun m => firstDayOfMonth m ≤ d) (d + 1)

/-- Is day `d` a pandas business day (Monday-Friday)? -/
def isBday (d : ℕ) : Bool :=
  (d + 5) % 7 < 5

/-- Roll a day forward to the next business day (identity on business
days): Saturday jumps 2 days, Sunday 1 day.  This is pandas' forward roll
used by `BDay(0)` and by anchoring. -/
def bdayRollForward (d : ℕ) : ℕ :=
  if (d + 5) % 7 = 5 then d + 2
  else if (d + 5) % 7 = 6 then d + 1
  else d

/-- The next business day strictly after `d`. -/
def succBDay (d : ℕ) : ℕ :=
  bdayRollForward (d + 1)

/-- pandas `d + BDay(n)` for `n ≥ 0`: on a business day, step forward `n`
business days; on a weekend day, the forward roll itself counts as the
first step (`Sat + BDay(1) = Monday`), and `BDay(0)` only rolls forward. -/
def addBDay (d : ℕ) (n : ℕ) : ℕ :=
  if isBday d then succBDay^[n] d
  else
    match n with
    | 0 => bdayRollForward d
    | k + 1 => succBDay^[k] (bdayRollForward d)

/-- The `BMS` (business-month-start) anchor of month `m`: its first
business day. -/
def firstBusinessDayOfMonth (m : ℕ) : ℕ :=
  bdayRollForward (firstDayOfMonth m)

/-- `pd.date_range(start, end, freq='BMS')` (monthly.py lines 69-73): every
first-business-day-of-month anchor lying inside `[start, end]`.  Anchors of
months before `monthOfDay start` fall before `start` and anchors of months
after `monthOfDay end` fall after `end` (each month's anchor is at most two
days past its first day and months are at least 28 days long), so scanning
the months of `start .. end` is exhaustive. -/
def bmsDates (start_date end_date : ℕ) : List ℕ :=
  ((List.range' (monthOfDay start_date)
      (monthOfDay end_date + 1 - monthOfDay start_date)).map
    firstBusinessDayOfMonth).filter
    (fun d => decide (start_date ≤ d) && decide (d ≤ end_date))

/-- The number of calendar months that intersect `[start, end]`. -/
def monthsInRange (start_date end_date : ℕ) : ℕ :=
  monthOfDay end_date + 1 - monthOfDay start_date

/-- Configuration of a `MonthlyRebalance` (monthly.py lines 27-39): the
stored `start_date`, `end_date`, the `monthday` business-day offset
(`pd.offsets.BDay(monthday)`), and the `pre_market` flag. -/
structure MonthlyRebalance where
  start_date : ℕ
  end_date : ℕ
  monthday : ℕ
  pre_market : Bool

namespace MonthlyRebalance

/-- `MonthlyRebalance._set_market_time` (monthly.py lines 42-58): the fixed
time-of-day string attached to every rebalance timestamp. -/
def set_market_time (pre_market : Bool) : String :=
  if pre_market then "14:30:00" else "21:00:00"

/-- Seconds after midnight denoted by the two market-time strings above
(what `pd.Timestamp("<date> <time>")` parses them to).  Only those two
strings ever reach this function. -/
def marketTimeSec (t : String) : ℕ :=
  if t = "14:30:00" then 52200 else 75600

/-- `MonthlyRebalance._generate_rebalances` (monthly.py lines 60-83): take
the `BMS` anchors in `[start_date, end_date]`, shift each by
`BDay(monthday)`, and attach the configured market time, producing UTC
timestamps (modelled as `day * 86400 + seconds`). -/
def generate_rebalances (r : MonthlyRebalance) : List ℕ :=
  let rebalance_dates := bmsDates r.start_date r.end_date
  let shifted := rebalance_dates.map (fun d => addBDay d r.monthday)
  shifted.map (fun d => d * 86400 + marketTimeSec (set_market_time r.pre_market))

end MonthlyRebalance


/-! ### Concrete instances used by counterexamples and witnesses -/

/-- Model for claim C1's witness: warmup 0 < lookback 126. -/
def c1model : DBTransactionAlphaModel :=
  { signals := { gain6m := { assets := ["X", "Y"], value := fun _ _ => 7 }
                 gain5d := { assets := ["X", "Y"], value := fun _ _ => 3 }
                 warmup := 0 }
    mom_lookback := 126
    mom_top_n := 3
    univ := { get_assets := fun _ => ["X", "Y"] }
    data_handler := ()
    gain6m_lookback := 126
    gain5d_lookback := 5 }

/-- Model for claim C2: the signal providers cover asset "A" while the
universe at every timestamp is just ["B"]. -/
def c2model : DBTransactionAlphaModel :=
  { signals := { gain6m := { assets := ["A"], value := fun _ _ => 0 }
                 gain5d := { assets := ["A"], value := fun _ _ => 0 }
                 warmup := 200 }
    mom_lookback := 126
    mom_top_n := 1
    univ := { get_assets := fun _ => ["B"] }
    data_handler := ()
    gain6m_lookback := 126
    gain5d_lookback := 5 }

/-- Model for claim C3's witness: two assets available, `mom_top_n = 3`. -/
def c3model : DBTransactionAlphaModel :=
  { signals := { gain6m := { assets := ["A", "B"],
                             value := fun a _ => if a = "A" then 2 else 1 }
                 gain5d := { assets := ["A", "B"], value := fun _ _ => 0 }
                 warmup := 200 }
    mom_lookback := 126
    mom_top_n := 3
    univ := { get_assets := fun _ => ["A", "B"] }
    data_handler := ()
    gain6m_lookback := 126
    gain5d_lookback := 5 }

/-- Model for claim C4: the spec's worked example.  Heat values
A:10, B:5, C:8, D:1; chill values A:0.1, B:-0.2, C:0.05, D:-0.3;
`mom_top_n = 2`. -/
def c4model : DBTransactionAlphaModel :=
  { signals := { gain6m := { assets := ["A", "B", "C", "D"],
                             value := fun a _ =>
                               if a = "A" then 10 else if a = "B" then 5
                               else if a = "C" then 8 else 1 }
                 gain5d := { assets := ["A", "B", "C", "D"],
                             value := fun a _ =>
                               if a = "A" then mkRat 1 10
                               else if a = "B" then mkRat (-1) 5
                               else if a = "C" then mkRat 1 20
                               else mkRat (-3) 10 }
                 warmup := 200 }
    mom_lookback := 126
    mom_top_n := 2
    univ := { get_assets := fun _ => ["A", "B", "C", "D"] }
    data_handler := ()
    gain6m_lookback := 126
    gain5d_lookback := 5 }

/-- Model for claim C5: the two signal providers cover different asset
sets (["A"] vs ["B"]). -/
def c5mismatch : DBTransactionAlphaModel :=
  { signals := { gain6m := { assets := ["A"], value := fun _ _ => 0 }
                 gain5d := { assets := ["B"], value := fun _ _ => 0 }
                 warmup := 200 }
    mom_lookback := 126
    mom_top_n := 1
    univ := { get_assets := fun _ => ["A"] }
    data_handler := ()
    gain6m_lookback := 126
    gain5d_lookback := 5 }

/-- Model for claim C5's witness success side: identical asset sets. -/
def c5match : DBTransactionAlphaModel :=
  { signals := { gain6m := { assets := ["A"], value := fun _ _ => 0 }
                 gain5d := { assets := ["A"], value := fun _ _ => 0 }
                 warmup := 200 }
    mom_lookback := 126
    mom_top_n := 1
    univ := { get_assets := fun _ => ["A"] }
    data_handler := ()
    gain6m_lookback := 126
    gain5d_lookback := 5 }

/-- Signals argument for claim C8's construction counterexample. -/
def c8signals : SignalsCollection :=
  { gain6m := { assets := [], value := fun _ _ => 0 }
    gain5d := { assets := [], value := fun _ _ => 0 }
    warmup := 0 }

/-- Universe argument for claim C8's construction counterexample. -/
def c8universe : Universe :=
  { get_assets := fun _ => [] }

/-- The object that `__init__` successfully builds for claim C8 even though
`mom_top_n = 0 < 1`. -/
def c8model : DBTransactionAlphaModel :=
  { signals := c8signals
    mom_lookback := 126
    mom_top_n := 0
    univ := c8universe
    data_handler := ()
    gain6m_lookback := 126
    gain5d_lookback := 5 }

/-- Model for claim C9's witness: signal asset "A" is outside the universe
["B"]. -/
def c9model : DBTransactionAlphaModel :=
  { signals := { gain6m := { assets := ["A"], value := fun _ _ => 1 }
                 gain5d := { assets := ["A"], value := fun _ _ => 1 }
                 warmup := 150 }
    mom_lookback := 126
    mom_top_n := 1
    univ := { get_assets := fun _ => ["B"] }
    data_handler := ()
    gain6m_lookback := 126
    gain5d_lookback := 5 }

/-- Model for claim C10's witness: `mom_top_n = 0`, warmup satisfied. -/
def c10model : DBTransactionAlphaModel :=
  { signals := { gain6m := { assets := ["A", "B"], value := fun _ _ => 4 }
                 gain5d := { assets := ["A", "B"], value := fun _ _ => 2 }
                 warmup := 200 }
    mom_lookback := 126
    mom_top_n := 0
    univ := { get_assets := fun _ => ["A", "B"] }
    data_handler := ()
    gain6m_lookback := 126
    gain5d_lookback := 5 }

/-! ### Lemmas about the Python-dict primitives -/

theorem pyDictSet_cons_self (p : String × β) (rest : List (String × β)) (v : β) :
    pyDictSet (p :: rest) p.1 v = (p.1, v) :: rest := by
  simp [pyDictSet]

theorem pyDictSet_cons_ne (p : String × β) (rest : List (String × β))
    (k : String) (v : β) (h : p.1 ≠ k) :
    pyDictSet (p :: rest) k v = p :: pyDictSet rest k v := by
  simp [pyDictSet, h]

theorem mem_pyDictKeys_pyDictSet (d : List (String × β)) (k : String) (v : β)
    (x : String) :
    x ∈ pyDictKeys (pyDictSet d k v) ↔ x ∈ pyDictKeys d ∨ x = k := by
  induction d with
  | nil => simp [pyDictSet, pyDictKeys]
  | cons p rest ih =>
    by_cases h : p.1 = k
    · subst h
      rw [pyDictSet_cons_self]
      simp only [pyDictKeys, List.map_cons, List.mem_cons]
      tauto
    · rw [pyDictSet_cons_ne p rest k v h]
      simp only [pyDictKeys, List.map_cons, List.mem_cons]
      simp only [pyDictKeys] at ih
      rw [ih]
      tauto

theorem mem_of_mem_pyDictSet (d : List (String × β)) (k : String) (v : β)
    (q : String × β) (hq : q ∈ pyDictSet d k v) : q.2 = v ∨ q ∈ d := by
  induction d with
  | nil =>
    simp only [pyDictSet, List.mem_singleton] at hq
    left; rw [hq]
  | cons p rest ih =>
    by_cases h : p.1 = k
    · simp only [pyDictSet, if_pos h, List.mem_cons] at hq
      rcases hq with hq | hq
      · left; rw [hq]
      · right; exact List.mem_cons_of_mem p hq
    · simp only [pyDictSet, if_neg h, List.mem_cons] at hq
      rcases hq with hq | hq
      · right; exact hq ▸ List.mem_cons_self p rest
      · rcases ih hq with h' | h'
        · left; exact h'
        · right; exact List.mem_cons_of_mem p h'

theorem pyDictLookup_pyDictSet_self (d : List (String × β)) (k : String) (v : β) :
    pyDictLookup (pyDictSet d k v) k = some v := by
  induction d with
  | nil => simp [pyDictSet, pyDictLookup]
  | cons p rest ih =>
    by_cases h : p.1 = k
    · subst h
      rw [pyDictSet_cons_self]
      simp [pyDictLookup]
    · rw [pyDictSet_cons_ne p rest k v h]
      simp [pyDictLookup, h, ih]

theorem pyDictLookup_pyDictSet_ne (d : List (String × β)) (k : String) (v : β)
    (x : String) (hx : x ≠ k) :
    pyDictLookup (pyDictSet d k v) x = pyDictLookup d x := by
  induction d with
  | nil => simp [pyDictSet, pyDictLookup, Ne.symm hx]
  | cons p rest ih =>
    by_cases h : p.1 = k
    · subst h
      rw [pyDictSet_cons_self]
      simp [pyDictLookup, Ne.symm hx]
    · rw [pyDictSet_cons_ne p rest k v h]
      simp [pyDictLookup, ih]

theorem sumVals_cons (p : String × ℚ) (d : List (String × ℚ)) :
    sumVals (p :: d) = p.2 + sumVals d := by
  simp [sumVals]

theorem sumVals_pyDictSet_le (d : List (String × ℚ)) (k : String) (v : ℚ)
    (hpos : ∀ q ∈ d, 0 ≤ q.2) (hv : 0 ≤ v) :
    sumVals (pyDictSet d k v) ≤ sumVals d + v := by
  induction d with
  | nil => simp [pyDictSet, sumVals]
  | cons p rest ih =>
    by_cases h : p.1 = k
    · simp only [pyDictSet, if_pos h, sumVals_cons]
      have h0 : 0 ≤ p.2 := hpos p (List.mem_cons_self p rest)
      linarith
    · simp only [pyDictSet, if_neg h, sumVals_cons]
      have := ih (fun q hq => hpos q (List.mem_cons_of_mem p hq))
      linarith

/-! ### Lemmas about dict-comprehension / assignment folds -/

theorem pyDictInsertAll_nil (w : List (String × β)) (f : String → β) :
    pyDictInsertAll w [] f = w := rfl

theorem pyDictInsertAll_cons (w : List (String × β)) (a : String)
    (ks : List String) (f : String → β) :
    pyDictInsertAll w (a :: ks) f = pyDictInsertAll (pyDictSet w a (f a)) ks f := rfl

theorem mem_pyDictKeys_pyDictInsertAll (ks : List String) (f : String → β)
    (w : List (String × β)) (x : String) :
    x ∈ pyDictKeys (pyDictInsertAll w ks f) ↔ x ∈ pyDictKeys w ∨ x ∈ ks := by
  induction ks generalizing w with
  | nil => simp [pyDictInsertAll_nil]
  | cons a ks ih =>
    rw [pyDictInsertAll_cons, ih, mem_pyDictKeys_pyDictSet]
    simp only [List.mem_cons]
    tauto

theorem mem_of_mem_pyDictInsertAll (ks : List String) (f : String → β)
    (w : List (String × β)) (q : String × β)
    (hq : q ∈ pyDictInsertAll w ks f) :
    q ∈ w ∨ ∃ a ∈ ks, q.2 = f a := by
  induction ks generalizing w with
  | nil => exact Or.inl hq
  | cons a ks ih =>
    rw [pyDictInsertAll_cons] at hq
    rcases ih _ hq with h' | ⟨b, hb, he⟩
    · rcases mem_of_mem_pyDictSet _ _ _ _ h' with h'' | h''
      · exact Or.inr ⟨a, List.mem_cons_self a ks, h''⟩
      · exact Or.inl h''
    · exact Or.inr ⟨b, List.mem_cons_of_mem a hb, he⟩

theorem pyDictLookup_pyDictInsertAll_of_not_mem (ks : List String) (f : String → β)
    (w : List (String × β)) (x : String) (hx : x ∉ ks) :
    pyDictLookup (pyDictInsertAll w ks f) x = pyDictLookup w x := by
  induction ks generalizing w with
  | nil => rfl
  | cons a ks ih =>
    rw [pyDictInsertAll_cons]
    have hxa : x ≠ a := fun he => hx (he ▸ List.mem_cons_self a ks)
    rw [ih _ (fun h => hx (List.mem_cons_of_mem a h)),
      pyDictLookup_pyDictSet_ne _ _ _ _ hxa]

theorem pyDictLookup_pyDictInsertAll_const (ks : List String) (v : β)
    (w : List (String × β)) (x : String) (hx : x ∈ ks) :
    pyDictLookup (pyDictInsertAll w ks (fun _ => v)) x = some v := by
  induction ks generalizing w with
  | nil => cases hx
  | cons a ks ih =>
    rw [pyDictInsertAll_cons]
    by_cases hxs : x ∈ ks
    · exact ih _ hxs
    · have hxa : x = a := by
        rcases List.mem_cons.1 hx with h | h
        · exact h
        · exact absurd h hxs
      rw [pyDictLookup_pyDictInsertAll_of_not_mem _ _ _ _ hxs, hxa,
        pyDictLookup_pyDictSet_self]

theorem nonneg_pyDictInsertAll (ks : List String) (v : ℚ)
    (w : List (String × ℚ)) (hw : ∀ q ∈ w, 0 ≤ q.2) (hv : 0 ≤ v) :
    ∀ q ∈ pyDictInsertAll w ks (fun _ => v), 0 ≤ q.2 := by
  induction ks generalizing w with
  | nil => exact hw
  | cons a ks ih =>
    rw [pyDictInsertAll_cons]
    refine ih _ (fun q hq => ?_)
    rcases mem_of_mem_pyDictSet _ _ _ _ hq with h | h
    · rw [h]; exact hv
    · exact hw q h

theorem sumVals_pyDictInsertAll_le (ks : List String) (v : ℚ)
    (w : List (String × ℚ)) (hw : ∀ q ∈ w, 0 ≤ q.2) (hv : 0 ≤ v) :
    sumVals (pyDictInsertAll w ks (fun _ => v)) ≤ sumVals w + ks.length * v := by
  induction ks generalizing w with
  | nil => simp [pyDictInsertAll_nil]
  | cons a ks ih =>
    rw [pyDictInsertAll_cons]
    have h1 := ih (pyDictSet w a v)
      (fun q hq => by
        rcases mem_of_mem_pyDictSet _ _ _ _ hq with h | h
        · rw [h]; exact hv
        · exact hw q h)
    have h2 := sumVals_pyDictSet_le w a v hw hv
    have : ((a :: ks).length : ℚ) * v = ks.length * v + v := by
      push_cast [List.length_cons]
      ring
    rw [this]
    linarith

theorem mem_pyDictKeys_pyDictOf (ks : List String) (v : β) (x : String) :
    x ∈ pyDictKeys (pyDictOf ks v) ↔ x ∈ ks := by
  unfold pyDictOf
  rw [mem_pyDictKeys_pyDictInsertAll]
  simp [pyDictKeys]

theorem val_eq_of_mem_pyDictOf (ks : List String) (v : β) (q : String × β)
    (hq : q ∈ pyDictOf ks v) : q.2 = v := by
  unfold pyDictOf at hq
  rcases mem_of_mem_pyDictInsertAll _ _ _ _ hq with h | ⟨_, _, h⟩
  · cases h
  · exact h

theorem sumVals_pyDictOf_zero (ks : List String) :
    sumVals (pyDictOf ks (0 : ℚ)) = 0 := by
  unfold sumVals
  apply List.sum_eq_zero
  intro x hx
  rcases List.mem_map.1 hx with ⟨q, hq, he⟩
  rw [← he]
  exact val_eq_of_mem_pyDictOf ks 0 q hq

/-! ### Lemmas about the stable sort and slicing -/

theorem insertSorted_perm (le : α → α → Bool) (x : α) (l : List α) :
    (insertSorted le x l).Perm (x :: l) := by
  induction l with
  | nil => exact List.Perm.refl _
  | cons y ys ih =>
    by_cases h : le y x = true
    · rw [insertSorted, if_pos h]
      exact (ih.cons y).trans (List.Perm.swap x y ys)
    · rw [insertSorted, if_neg h]

theorem foldl_insertSorted_perm (le : α → α → Bool) (l acc : List α) :
    (l.foldl (fun acc x => insertSorted le x acc) acc).Perm (acc ++ l) := by
  induction l generalizing acc with
  | nil => simp
  | cons x xs ih =>
    rw [List.foldl_cons]
    refine (ih _).trans ?_
    refine (List.Perm.append_right xs (insertSorted_perm le x acc)).trans ?_
    exact List.perm_middle.symm

theorem pySorted_perm (le : α → α → Bool) (l : List α) :
    (pySorted le l).Perm l := by
  simpa using foldl_insertSorted_perm le l []

theorem pySlice_sublist (xs : List α) (n : ℤ) : (pySlice xs n).Sublist xs := by
  unfold pySlice
  split
  · exact List.take_sublist _ _
  · exact List.take_sublist _ _

theorem length_pySlice_le (xs : List α) (n : ℤ) (hn : 0 ≤ n) :
    (pySlice xs n).length ≤ n.toNat := by
  unfold pySlice
  rw [if_pos hn]
  simpa using Nat.min_le_left _ _

theorem pySlice_of_nonneg (xs : List α) (n : ℤ) (hn : 0 ≤ n) :
    pySlice xs n = xs.take n.toNat := by
  unfold pySlice
  rw [if_pos hn]

/-! ### Lemmas about the dbtrx.py pipeline -/

namespace DBTransactionAlphaModel

theorem mem_heatOf_iff (m : DBTransactionAlphaModel) (a : String) :
    a ∈ heatOf m ↔ a ∈ m.signals.gain6m.assets := by
  unfold heatOf
  rw [((pySorted_perm _ (all6mOf m)).map Prod.fst).mem_iff]
  have : (all6mOf m).map Prod.fst = pyDictKeys (all6mOf m) := rfl
  rw [this]
  unfold all6mOf
  rw [mem_pyDictKeys_pyDictInsertAll]
  simp [pyDictKeys]

theorem mem_dbtrxlistOf_iff (m : DBTransactionAlphaModel) (a : String) :
    a ∈ dbtrxlistOf m ↔ a ∈ heatOf m := by
  unfold dbtrxlistOf
  rw [((pySorted_perm _ (dbtrxmapOf m)).map Prod.fst).mem_iff]
  unfold dbtrxmapOf
  simp [List.map_map, Function.comp]

theorem mem_of_mem_topAssetsOf (m : DBTransactionAlphaModel) (a : String)
    (h : a ∈ topAssetsOf m) : a ∈ m.signals.gain6m.assets := by
  have h1 : a ∈ dbtrxlistOf m := (pySlice_sublist _ _).subset h
  exact (mem_heatOf_iff m a).1 ((mem_dbtrxlistOf_iff m a).1 h1)

theorem topAssetsOf_eq_nil_of_zero (m : DBTransactionAlphaModel)
    (h : m.mom_top_n = 0) : topAssetsOf m = [] := by
  unfold topAssetsOf pySlice
  rw [h]
  simp

theorem assignTopWeights_eq_ok (n : ℤ) (hn : n ≠ 0) (top : List String)
    (w : List (String × ℚ)) :
    assignTopWeights n top w =
      Except.ok (pyDictInsertAll w top (fun _ => 1 / (n : ℚ))) := by
  induction top generalizing w with
  | nil => rfl
  | cons a rest ih =>
    simp only [assignTopWeights, List.foldlM_cons, if_neg hn] at *
    rw [pyDictInsertAll_cons]
    exact ih (pyDictSet w a (1 / (n : ℚ)))

theorem call_eq_inert (m : DBTransactionAlphaModel) (dt : ℕ)
    (hw : ¬ m.mom_lookback ≤ m.signals.warmup) :
    call m dt = Except.ok (pyDictOf (m.univ.get_assets dt) (0 : ℚ)) := by
  unfold call
  rw [if_neg hw]

theorem call_eq_active (m : DBTransactionAlphaModel) (dt : ℕ)
    (hw : m.mom_lookback ≤ m.signals.warmup)
    (ha : m.signals.gain6m.assets = m.signals.gain5d.assets)
    (hn : m.mom_top_n ≠ 0) :
    call m dt = Except.ok
      (pyDictInsertAll (pyDictOf (m.univ.get_assets dt) (0 : ℚ))
        (topAssetsOf m) (fun _ => 1 / (m.mom_top_n : ℚ))) := by
  unfold call generate_signals dbtransaction_asset
  rw [if_pos hw, if_pos ha]
  show assignTopWeights m.mom_top_n (topAssetsOf m) _ = _
  exact assignTopWeights_eq_ok _ hn _ _

theorem dbtrx_score_mkRat (r1 r2 : ℕ) :
    heatwt * (r1 : ℚ) + (1 - heatwt) * (r2 : ℚ) = mkRat (r1 + r2) 2 := by
  unfold heatwt
  rw [Rat.mkRat_eq_div]
  push_cast
  ring

theorem dbtrxmapOf_eq_mkRat (m : DBTransactionAlphaModel) :
    dbtrxmapOf m = (heatOf m).map (fun sym =>
      (sym, mkRat (rankLookup (heatmapOf m) sym + rankLookup (chillmapOf m) sym) 2)) := by
  unfold dbtrxmapOf
  apply List.map_congr_left
  intro sym _
  rw [dbtrx_score_mkRat]

theorem topAssetsOf_c4model : topAssetsOf c4model = ["A", "C"] := by
  unfold topAssetsOf dbtrxlistOf
  rw [dbtrxmapOf_eq_mkRat]
  decide

theorem call_eq_zero_top (m : DBTransactionAlphaModel) (dt : ℕ)
    (hw : m.mom_lookback ≤ m.signals.warmup)
    (ha : m.signals.gain6m.assets = m.signals.gain5d.assets)
    (h0 : m.mom_top_n = 0) :
    call m dt = Except.ok (pyDictOf (m.univ.get_assets dt) (0 : ℚ)) := by
  unfold call generate_signals dbtransaction_asset
  rw [if_pos hw, if_pos ha]
  show assignTopWeights m.mom_top_n (topAssetsOf m) _ = _
  rw [topAssetsOf_eq_nil_of_zero m h0]
  rfl

end DBTransactionAlphaModel

/-! ### Claim theorems for the alpha-weighting engine (dbtrx.py) -/

open DBTransactionAlphaModel

/-- Claim C1.  For every timestamp `dt`, if the signals' warmup counter is
strictly below the configured momentum lookback, then
`DBTransactionAlphaModel.__call__` returns the dict mapping every current
universe member (and nothing else) to 0.0, regardless of the signal values.
The statement quantifies over every model state `m` and every `dt`, and
`call` is a pure function of `(m, dt)`: the gate is recomputed from the
warmup comparison at each call with no memory of prior activations. -/
theorem c1_warmup_gate_zero_vector (m : DBTransactionAlphaModel) (dt : ℕ)
    (h : m.signals.warmup < m.mom_lookback) :
    call m dt = Except.ok (pyDictOf (m.univ.get_assets dt) (0 : ℚ)) ∧
    (∀ x, x ∈ pyDictKeys (pyDictOf (m.univ.get_assets dt) (0 : ℚ)) ↔
      x ∈ m.univ.get_assets dt) ∧
    (∀ q ∈ pyDictOf (m.univ.get_assets dt) (0 : ℚ), q.2 = 0) :=
  ⟨call_eq_inert m dt (not_le.2 h),
   fun x => mem_pyDictKeys_pyDictOf _ _ x,
   fun q hq => val_eq_of_mem_pyDictOf _ _ q hq⟩

/-- Witness for C1: the concrete model `c1model` (warmup 0 < lookback 126)
evaluates to the all-zero dict over its universe. -/
theorem c1_warmup_gate_zero_vector_witness :
    c1model.signals.warmup < c1model.mom_lookback ∧
    (call c1model 0 = Except.ok (pyDictOf (c1model.univ.get_assets 0) (0 : ℚ)) ∧
     (∀ x, x ∈ pyDictKeys (pyDictOf (c1model.univ.get_assets 0) (0 : ℚ)) ↔
       x ∈ c1model.univ.get_assets 0) ∧
     (∀ q ∈ pyDictOf (c1model.univ.get_assets 0) (0 : ℚ), q.2 = 0)) :=
  ⟨by decide, c1_warmup_gate_zero_vector c1model 0 (by decide)⟩

/-- Counterexample to claim C2 as stated: in `c2model` the signal
providers cover asset "A" while the universe at `dt = 0` is `["B"]`; the
evaluation succeeds and returns a dict whose key set is `["B", "A"]`,
strictly larger than the universe member set — so the returned key set
does not equal the universe member set. -/
theorem c2_keys_counterexample :
    call c2model 0 = Except.ok [("B", (0 : ℚ)), ("A", 1)] ∧
    "A" ∈ pyDictKeys [("B", (0 : ℚ)), ("A", 1)] ∧
    "A" ∉ c2model.univ.get_assets 0 := by
  refine ⟨?_, by decide, by decide⟩
  rw [call_eq_active c2model 0 (by decide) (by decide) (by decide)]
  simp only [show (1 : ℚ) / (c2model.mom_top_n : ℚ) = 1 from by
    norm_num [c2model]]
  decide

/-- Claim C2, amended.  For every successful evaluation with
`mom_top_n ≥ 1`, the returned dict's key set equals the universe members
at `dt` together with the selected top assets (which are drawn from the
signal provider's asset list and may lie outside the universe); every
value is ≥ 0; and the sum of all values is ≤ 1.0.  (The original claim's
"key set equals exactly the universe members" fails —
see `c2_keys_counterexample`.) -/
theorem c2_weights_invariant (m : DBTransactionAlphaModel) (dt : ℕ)
    (hw : m.mom_lookback ≤ m.signals.warmup)
    (ha : m.signals.gain6m.assets = m.signals.gain5d.assets)
    (hn : 1 ≤ m.mom_top_n) :
    ∃ w, call m dt = Except.ok w ∧
      (∀ x, x ∈ pyDictKeys w ↔
        x ∈ m.univ.get_assets dt ∨ x ∈ topAssetsOf m) ∧
      (∀ q ∈ w, 0 ≤ q.2) ∧
      sumVals w ≤ 1 := by
  have hn0 : m.mom_top_n ≠ 0 := by omega
  have hnq : (0 : ℚ) < (m.mom_top_n : ℚ) := by
    exact_mod_cast (by omega : (0 : ℤ) < m.mom_top_n)
  have hvq : (0 : ℚ) ≤ 1 / (m.mom_top_n : ℚ) := by positivity
  refine ⟨_, call_eq_active m dt hw ha hn0, ?_, ?_, ?_⟩
  · intro x
    rw [mem_pyDictKeys_pyDictInsertAll, mem_pyDictKeys_pyDictOf]
  · exact nonneg_pyDictInsertAll _ _ _
      (fun q hq => le_of_eq (val_eq_of_mem_pyDictOf _ _ q hq).symm) hvq
  · have hsum := sumVals_pyDictInsertAll_le (topAssetsOf m)
      (1 / (m.mom_top_n : ℚ)) (pyDictOf (m.univ.get_assets dt) 0)
      (fun q hq => le_of_eq (val_eq_of_mem_pyDictOf _ _ q hq).symm) hvq
    rw [sumVals_pyDictOf_zero] at hsum
    have hlen : ((topAssetsOf m).length : ℚ) ≤ (m.mom_top_n : ℚ) := by
      have h1 : (topAssetsOf m).length ≤ m.mom_top_n.toNat :=
        length_pySlice_le _ _ (by omega)
      have h2 : ((m.mom_top_n.toNat : ℤ) : ℚ) = (m.mom_top_n : ℚ) := by
        rw [Int.toNat_of_nonneg (by omega : (0 : ℤ) ≤ m.mom_top_n)]
      calc ((topAssetsOf m).length : ℚ) ≤ ((m.mom_top_n.toNat : ℤ) : ℚ) := by
            exact_mod_cast h1
        _ = (m.mom_top_n : ℚ) := h2
    have hfin : ((topAssetsOf m).length : ℚ) * (1 / (m.mom_top_n : ℚ)) ≤ 1 := by
      rw [mul_one_div, div_le_one hnq]
      exact hlen
    linarith

/-- Witness for C2 (amended): the concrete model `c2model` (warmup 200 ≥
lookback 126, identical signal asset lists, `mom_top_n = 1`). -/
theorem c2_weights_invariant_witness :
    c2model.mom_lookback ≤ c2model.signals.warmup ∧
    c2model.signals.gain6m.assets = c2model.signals.gain5d.assets ∧
    1 ≤ c2model.mom_top_n ∧
    (∃ w, call c2model 0 = Except.ok w ∧
      (∀ x, x ∈ pyDictKeys w ↔
        x ∈ c2model.univ.get_assets 0 ∨ x ∈ topAssetsOf c2model) ∧
      (∀ q ∈ w, 0 ≤ q.2) ∧
      sumVals w ≤ 1) :=
  ⟨by decide, by decide, by decide,
   c2_weights_invariant c2model 0 (by decide) (by decide) (by decide)⟩

/-- Claim C3.  For every evaluation past the warmup gate (with the
asset-list assertion satisfied and `mom_top_n ≥ 1`): the engine selects
the first `mom_top_n` assets of the composite list sorted ascending
(`dbtrxlist[:mom_top_n]`); when at most `mom_top_n` assets exist it
selects all of them and the call still succeeds; every selected asset's
returned weight is exactly `1.0 / mom_top_n` (not `1 / selectedCount`);
and when fewer than `mom_top_n` assets are selected the total allocation
is strictly below 1.0. -/
theorem c3_topn_selection_and_weights (m : DBTransactionAlphaModel) (dt : ℕ)
    (hw : m.mom_lookback ≤ m.signals.warmup)
    (ha : m.signals.gain6m.assets = m.signals.gain5d.assets)
    (hn : 1 ≤ m.mom_top_n) :
    topAssetsOf m = (dbtrxlistOf m).take m.mom_top_n.toNat ∧
    ((dbtrxlistOf m).length ≤ m.mom_top_n.toNat →
      topAssetsOf m = dbtrxlistOf m) ∧
    ∃ w, call m dt = Except.ok w ∧
      (∀ a ∈ topAssetsOf m,
        pyDictLookup w a = some (1 / (m.mom_top_n : ℚ))) ∧
      ((topAssetsOf m).length < m.mom_top_n.toNat → sumVals w < 1) := by
  have hn0 : m.mom_top_n ≠ 0 := by omega
  have hnq : (0 : ℚ) < (m.mom_top_n : ℚ) := by
    exact_mod_cast (by omega : (0 : ℤ) < m.mom_top_n)
  have hvq : (0 : ℚ) ≤ 1 / (m.mom_top_n : ℚ) := by positivity
  have htake : topAssetsOf m = (dbtrxlistOf m).take m.mom_top_n.toNat :=
    pySlice_of_nonneg _ _ (by omega)
  refine ⟨htake, ?_, _, call_eq_active m dt hw ha hn0, ?_, ?_⟩
  · intro hlen
    rw [htake]
    exact List.take_of_length_le hlen
  · intro a ha'
    exact pyDictLookup_pyDictInsertAll_const _ _ _ _ ha'
  · intro hlt
    have hsum := sumVals_pyDictInsertAll_le (topAssetsOf m)
      (1 / (m.mom_top_n : ℚ)) (pyDictOf (m.univ.get_assets dt) 0)
      (fun q hq => le_of_eq (val_eq_of_mem_pyDictOf _ _ q hq).symm) hvq
    rw [sumVals_pyDictOf_zero] at hsum
    have hlen : ((topAssetsOf m).length : ℚ) < (m.mom_top_n : ℚ) := by
      have h2 : ((m.mom_top_n.toNat : ℤ) : ℚ) = (m.mom_top_n : ℚ) := by
        rw [Int.toNat_of_nonneg (by omega : (0 : ℤ) ≤ m.mom_top_n)]
      calc ((topAssetsOf m).length : ℚ) < ((m.mom_top_n.toNat : ℤ) : ℚ) := by
            exact_mod_cast hlt
        _ = (m.mom_top_n : ℚ) := h2
    have hfin : ((topAssetsOf m).length : ℚ) * (1 / (m.mom_top_n : ℚ)) < 1 := by
      rw [mul_one_div, div_lt_one hnq]
      exact hlen
    linarith

/-- Witness for C3: `c3model` has two assets and `mom_top_n = 3`; both are
selected, each with weight 1/3, and the total stays strictly below 1. -/
theorem c3_topn_selection_and_weights_witness :
    c3model.mom_lookback ≤ c3model.signals.warmup ∧
    c3model.signals.gain6m.assets = c3model.signals.gain5d.assets ∧
    1 ≤ c3model.mom_top_n ∧
    (topAssetsOf c3model = (dbtrxlistOf c3model).take c3model.mom_top_n.toNat ∧
     ((dbtrxlistOf c3model).length ≤ c3model.mom_top_n.toNat →
       topAssetsOf c3model = dbtrxlistOf c3model) ∧
     ∃ w, call c3model 0 = Except.ok w ∧
       (∀ a ∈ topAssetsOf c3model,
         pyDictLookup w a = some (1 / (c3model.mom_top_n : ℚ))) ∧
       ((topAssetsOf c3model).length < c3model.mom_top_n.toNat →
         sumVals w < 1)) :=
  ⟨by decide, by decide, by decide,
   c3_topn_selection_and_weights c3model 0 (by decide) (by decide) (by decide)⟩

/-- Counterexample to claim C4 as stated: on the spec's own example data
(`c4model`), the composite scores all tie at 5/2, but with `topN = 2` the
engine selects `["A", "C"]` — the first two assets of the heat-descending
iteration order, not the first two assets of the values' original
iteration order (`["A", "B"]`). -/
theorem c4_tie_selection_counterexample :
    dbtransaction_asset c4model 0 = Except.ok ["A", "C"] ∧
    (["A", "C"] : List String) ≠ ["A", "B"] := by
  constructor
  · unfold dbtransaction_asset
    rw [if_pos (by decide : c4model.signals.gain6m.assets =
      c4model.signals.gain5d.assets), topAssetsOf_c4model]
  · decide

/-- Claim C4, amended.  Per-signal ranking assigns ranks 1..K in sorted
order with ties broken by original iteration order, and for the example's
heat and chill values the composite is the all-5/2 tie; but the composite
dict is built iterating the heat-descending order `[A, C, B, D]`, so the
stable ascending sort preserves that order and `topN = 2` selects
`A` then `C` (not `A` then `B`), each weighted 0.5. -/
theorem c4_tie_selection_stable_order :
    heatOf c4model = ["A", "C", "B", "D"] ∧
    chillOf c4model = ["D", "B", "C", "A"] ∧
    heatmapOf c4model = [("A", 1), ("C", 2), ("B", 3), ("D", 4)] ∧
    chillmapOf c4model = [("D", 1), ("B", 2), ("C", 3), ("A", 4)] ∧
    dbtrxmapOf c4model = [("A", 5/2), ("C", 5/2), ("B", 5/2), ("D", 5/2)] ∧
    dbtransaction_asset c4model 0 = Except.ok ["A", "C"] ∧
    call c4model 0 =
      Except.ok [("A", 1/2), ("B", 0), ("C", 1/2), ("D", 0)] := by
  refine ⟨by decide, by decide, by decide, by decide, ?_, ?_, ?_⟩
  · rw [dbtrxmapOf_eq_mkRat]
    simp only [show (5 : ℚ)/2 = mkRat 5 2 from by rw [Rat.mkRat_eq_div]; norm_num]
    decide
  · unfold dbtransaction_asset
    rw [if_pos (by decide : c4model.signals.gain6m.assets =
      c4model.signals.gain5d.assets), topAssetsOf_c4model]
  · rw [call_eq_active c4model 0 (by decide) (by decide) (by decide),
      topAssetsOf_c4model]
    simp only [show (1 : ℚ) / (c4model.mom_top_n : ℚ) = mkRat 1 2 from by
        norm_num [c4model, Rat.mkRat_eq_div],
      show (1 : ℚ)/2 = mkRat 1 2 from by rw [Rat.mkRat_eq_div]; norm_num]
    decide

/-- Counterexample to claim C5 as stated: with mismatched signal asset
lists (`c5mismatch`), the blend step fails via the Python `assert` with an
AssertionError — which is not a ConfigurationError. -/
theorem c5_assert_counterexample :
    dbtransaction_asset c5mismatch 0 = Except.error PyErr.assertionError ∧
    PyErr.assertionError ≠ PyErr.configurationError :=
  ⟨by decide, by decide⟩

/-- Claim C5, amended.  When the rank lists supplied to the composite
blending step cover different asset sets, the blend fails with an
AssertionError (a Python `assert`, not a ConfigurationError); when the
asset sets are identical it succeeds, returning the top slice of
`dbtrxlistOf`, which is ordered by `dbtrxmapOf` — by definition each
asset's weighted sum (0.5/0.5) of its two ranks. -/
theorem c5_blend_asset_set_check (m : DBTransactionAlphaModel) (dt : ℕ) :
    (m.signals.gain6m.assets ≠ m.signals.gain5d.assets →
      dbtransaction_asset m dt = Except.error PyErr.assertionError) ∧
    (m.signals.gain6m.assets = m.signals.gain5d.assets →
      dbtransaction_asset m dt = Except.ok (topAssetsOf m)) := by
  constructor
  · intro h
    unfold dbtransaction_asset
    rw [if_neg h]
  · intro h
    unfold dbtransaction_asset
    rw [if_pos h]

/-- Witness for C5 (amended): both branches at concrete models —
`c5mismatch` fails with AssertionError, `c5match` succeeds. -/
theorem c5_blend_asset_set_check_witness :
    (c5mismatch.signals.gain6m.assets ≠ c5mismatch.signals.gain5d.assets ∧
     dbtransaction_asset c5mismatch 0 = Except.error PyErr.assertionError) ∧
    (c5match.signals.gain6m.assets = c5match.signals.gain5d.assets ∧
     dbtransaction_asset c5match 0 = Except.ok (topAssetsOf c5match)) :=
  ⟨⟨by decide, (c5_blend_asset_set_check c5mismatch 0).1 (by decide)⟩,
   ⟨by decide, (c5_blend_asset_set_check c5match 0).2 (by decide)⟩⟩

/-- Counterexample to claim C8 as stated: constructing the engine with
`mom_top_n = 0 < 1` succeeds — `__init__` returns the object and raises
nothing, so there is no ConfigurationError at construction time. -/
theorem c8_no_validation_counterexample :
    (0 : ℤ) < 1 ∧
    DBTransactionAlphaModel.init c8signals 126 0 c8universe () =
      Except.ok c8model :=
  ⟨by decide, rfl⟩

/-- Claim C8, amended.  `__init__` performs no validation at all: for
every argument tuple (including any `mom_top_n < 1`) construction
succeeds, storing the arguments unchecked together with the hard-coded
lookbacks 126 and 5. -/
theorem c8_init_stores_unchecked (s : SignalsCollection) (lb : ℕ) (n : ℤ)
    (u : Universe) :
    DBTransactionAlphaModel.init s lb n u () = Except.ok
      { signals := s, mom_lookback := lb, mom_top_n := n, univ := u,
        data_handler := (), gain6m_lookback := 126, gain5d_lookback := 5 } :=
  rfl

/-- Claim C9.  The engine ranks and selects from the signal provider's
asset list (`signals['gain6m'].assets`), not from the universe membership
at `dt`: every selected asset is drawn from the signal asset list, and a
selected asset `a` absent from the universe still receives weight
`1.0 / mom_top_n`, adding the key `a` to the returned dict beyond the
universe members. -/
theorem c9_selection_from_signal_assets (m : DBTransactionAlphaModel)
    (dt : ℕ) (a : String)
    (hw : m.mom_lookback ≤ m.signals.warmup)
    (ha : m.signals.gain6m.assets = m.signals.gain5d.assets)
    (hn : 1 ≤ m.mom_top_n)
    (hsel : a ∈ topAssetsOf m)
    (hout : a ∉ m.univ.get_assets dt) :
    a ∈ m.signals.gain6m.assets ∧
    ∃ w, call m dt = Except.ok w ∧
      pyDictLookup w a = some (1 / (m.mom_top_n : ℚ)) ∧
      a ∈ pyDictKeys w ∧ a ∉ m.univ.get_assets dt := by
  have hn0 : m.mom_top_n ≠ 0 := by omega
  refine ⟨mem_of_mem_topAssetsOf m a hsel, _, call_eq_active m dt hw ha hn0,
    pyDictLookup_pyDictInsertAll_const _ _ _ _ hsel, ?_, hout⟩
  rw [mem_pyDictKeys_pyDictInsertAll]
  exact Or.inr hsel

/-- Witness for C9: in `c9model` the signal asset "A" is selected and ends
up in the returned dict although the universe is `["B"]`. -/
theorem c9_selection_from_signal_assets_witness :
    c9model.mom_lookback ≤ c9model.signals.warmup ∧
    c9model.signals.gain6m.assets = c9model.signals.gain5d.assets ∧
    1 ≤ c9model.mom_top_n ∧
    "A" ∈ topAssetsOf c9model ∧
    "A" ∉ c9model.univ.get_assets 0 ∧
    ("A" ∈ c9model.signals.gain6m.assets ∧
     ∃ w, call c9model 0 = Except.ok w ∧
       pyDictLookup w "A" = some (1 / (c9model.mom_top_n : ℚ)) ∧
       "A" ∈ pyDictKeys w ∧ "A" ∉ c9model.univ.get_assets 0) :=
  ⟨by decide, by decide, by decide, by decide, by decide,
   c9_selection_from_signal_assets c9model 0 "A" (by decide) (by decide)
     (by decide) (by decide) (by decide)⟩

/-- Claim C10.  With `mom_top_n = 0` and the warmup gate passed, the top-N
slice is empty, so no asset is selected and the per-asset assignment loop
— the only place `1.0 / mom_top_n` is evaluated — never runs: `__call__`
returns the all-zero dict over the universe members with `Except.ok`
(in particular, no ZeroDivisionError). -/
theorem c10_zero_topn_no_division (m : DBTransactionAlphaModel) (dt : ℕ)
    (hw : m.mom_lookback ≤ m.signals.warmup)
    (ha : m.signals.gain6m.assets = m.signals.gain5d.assets)
    (h0 : m.mom_top_n = 0) :
    topAssetsOf m = [] ∧
    call m dt = Except.ok (pyDictOf (m.univ.get_assets dt) (0 : ℚ)) ∧
    (∀ q ∈ pyDictOf (m.univ.get_assets dt) (0 : ℚ), q.2 = 0) :=
  ⟨topAssetsOf_eq_nil_of_zero m h0, call_eq_zero_top m dt hw ha h0,
   fun q hq => val_eq_of_mem_pyDictOf _ _ q hq⟩

/-- Witness for C10: `c10model` (`mom_top_n = 0`, warmup 200 ≥ 126). -/
theorem c10_zero_topn_no_division_witness :
    c10model.mom_lookback ≤ c10model.signals.warmup ∧
    c10model.signals.gain6m.assets = c10model.signals.gain5d.assets ∧
    c10model.mom_top_n = 0 ∧
    (topAssetsOf c10model = [] ∧
     call c10model 0 = Except.ok (pyDictOf (c10model.univ.get_assets 0) (0 : ℚ)) ∧
     (∀ q ∈ pyDictOf (c10model.univ.get_assets 0) (0 : ℚ), q.2 = 0)) :=
  ⟨by decide, by decide, by decide,
   c10_zero_topn_no_division c10model 0 (by decide) (by decide) (by decide)⟩

/-! ### Lemmas about the calendar arithmetic -/

theorem monthLen_ge (m : ℕ) : 28 ≤ monthLen m := by
  unfold monthLen
  split
  · split <;> omega
  · split <;> omega

theorem firstDayOfMonth_succ (m : ℕ) :
    firstDayOfMonth (m + 1) = firstDayOfMonth m + monthLen m := rfl

theorem firstDayOfMonth_add_le (m : ℕ) :
    firstDayOfMonth m + 28 ≤ firstDayOfMonth (m + 1) := by
  rw [firstDayOfMonth_succ]
  have := monthLen_ge m
  omega

theorem le_firstDayOfMonth (m : ℕ) : m ≤ firstDayOfMonth m := by
  induction m with
  | zero => exact Nat.le_refl 0
  | succ k ih =>
    have := firstDayOfMonth_add_le k
    omega

theorem firstDayOfMonth_strictMono : StrictMono firstDayOfMonth := by
  apply strictMono_nat_of_lt_succ
  intro m
  have := firstDayOfMonth_add_le m
  omega

theorem le_bdayRollForward (d : ℕ) : d ≤ bdayRollForward d := by
  unfold bdayRollForward
  split
  · omega
  · split <;> omega

theorem bdayRollForward_le (d : ℕ) : bdayRollForward d ≤ d + 2 := by
  unfold bdayRollForward
  split
  · omega
  · split <;> omega

theorem isBday_bdayRollForward (d : ℕ) : isBday (bdayRollForward d) = true := by
  simp only [isBday, bdayRollForward, decide_eq_true_eq]
  split
  · omega
  · split <;> omega

theorem bdayRollForward_le_of_isBday (d e : ℕ) (he : isBday e = true)
    (hde : d ≤ e) : bdayRollForward d ≤ e := by
  simp only [isBday, decide_eq_true_eq] at he
  unfold bdayRollForward
  split
  · omega
  · split <;> omega

theorem lt_succBDay (d : ℕ) : d < succBDay d := by
  have := le_bdayRollForward (d + 1)
  unfold succBDay
  omega

theorem isBday_succBDay (d : ℕ) : isBday (succBDay d) = true :=
  isBday_bdayRollForward (d + 1)

theorem succBDay_strict (d₁ d₂ : ℕ) (h : d₁ < d₂) (h₂ : isBday d₂ = true) :
    succBDay d₁ < succBDay d₂ := by
  have ha : succBDay d₁ ≤ d₂ := bdayRollForward_le_of_isBday _ _ h₂ (by omega)
  have hb := lt_succBDay d₂
  omega

theorem isBday_succBDay_iter (d n : ℕ) (h : isBday d = true) :
    isBday (succBDay^[n] d) = true := by
  induction n with
  | zero => exact h
  | succ k ih =>
    rw [Function.iterate_succ_apply']
    exact isBday_succBDay _

theorem succBDay_iter_strict (n d₁ d₂ : ℕ) (h : d₁ < d₂)
    (h₁ : isBday d₁ = true) (h₂ : isBday d₂ = true) :
    succBDay^[n] d₁ < succBDay^[n] d₂ := by
  induction n generalizing d₁ d₂ with
  | zero => exact h
  | succ k ih =>
    rw [Function.iterate_succ_apply, Function.iterate_succ_apply]
    exact ih _ _ (succBDay_strict _ _ h h₂) (isBday_succBDay _) (isBday_succBDay _)

theorem addBDay_strict (n d₁ d₂ : ℕ) (h : d₁ < d₂)
    (h₁ : isBday d₁ = true) (h₂ : isBday d₂ = true) :
    addBDay d₁ n < addBDay d₂ n := by
  unfold addBDay
  rw [if_pos h₁, if_pos h₂]
  exact succBDay_iter_strict n d₁ d₂ h h₁ h₂

theorem isBday_firstBusinessDayOfMonth (m : ℕ) :
    isBday (firstBusinessDayOfMonth m) = true :=
  isBday_bdayRollForward _

theorem firstDayOfMonth_le_fbd (m : ℕ) :
    firstDayOfMonth m ≤ firstBusinessDayOfMonth m :=
  le_bdayRollForward _

theorem fbd_lt_firstDayOfMonth_succ (m : ℕ) :
    firstBusinessDayOfMonth m < firstDayOfMonth (m + 1) := by
  have h1 := bdayRollForward_le (firstDayOfMonth m)
  have h2 := firstDayOfMonth_add_le m
  unfold firstBusinessDayOfMonth
  omega

theorem fbd_strictMono : StrictMono firstBusinessDayOfMonth := by
  apply strictMono_nat_of_lt_succ
  intro m
  have h1 := fbd_lt_firstDayOfMonth_succ m
  have h2 := firstDayOfMonth_le_fbd (m + 1)
  omega

theorem firstDayOfMonth_monthOfDay_le (d : ℕ) :
    firstDayOfMonth (monthOfDay d) ≤ d := by
  unfold monthOfDay
  exact Nat.findGreatest_spec (P := fun m => firstDayOfMonth m ≤ d)
    (Nat.zero_le _) (by simp [firstDayOfMonth])

theorem monthOfDay_le (d : ℕ) : monthOfDay d ≤ d :=
  le_trans (le_firstDayOfMonth _) (firstDayOfMonth_monthOfDay_le d)

theorem lt_firstDayOfMonth_monthOfDay_succ (d : ℕ) :
    d < firstDayOfMonth (monthOfDay d + 1) := by
  by_contra hc
  push_neg at hc
  have hk2 : monthOfDay d + 1 ≤ d + 1 := by
    have := monthOfDay_le d
    omega
  have hlt : Nat.findGreatest (fun m => firstDayOfMonth m ≤ d) (d + 1) <
      monthOfDay d + 1 := by
    unfold monthOfDay
    omega
  exact Nat.findGreatest_is_greatest (P := fun m => firstDayOfMonth m ≤ d)
    hlt hk2 hc

theorem monthOfDay_mono (d e : ℕ) (h : d ≤ e) : monthOfDay d ≤ monthOfDay e := by
  have h1 : firstDayOfMonth (monthOfDay d) ≤ e :=
    le_trans (firstDayOfMonth_monthOfDay_le d) h
  have h2 : monthOfDay d ≤ e + 1 := by
    have := monthOfDay_le d
    omega
  show monthOfDay d ≤ Nat.findGreatest (fun m => firstDayOfMonth m ≤ e) (e + 1)
  exact Nat.le_findGreatest h2 h1

/-! ### Lemmas about the BMS anchor list and the rebalance list -/

theorem mem_bmsDates (s e x : ℕ) (hx : x ∈ bmsDates s e) :
    isBday x = true ∧ s ≤ x ∧ x ≤ e := by
  unfold bmsDates at hx
  rw [List.mem_filter] at hx
  obtain ⟨hmem, hpred⟩ := hx
  rcases List.mem_map.1 hmem with ⟨m, _, rfl⟩
  simp only [Bool.and_eq_true, decide_eq_true_eq] at hpred
  exact ⟨isBday_firstBusinessDayOfMonth m, hpred.1, hpred.2⟩

theorem bmsDates_pairwise (s e : ℕ) : (bmsDates s e).Pairwise (· < ·) := by
  unfold bmsDates
  apply List.Pairwise.sublist (List.filter_sublist _)
  rw [List.pairwise_map]
  exact List.Pairwise.imp (fun hab => fbd_strictMono hab)
    (List.pairwise_lt_range' _ _)

theorem bmsDates_length_le (s e : ℕ) :
    (bmsDates s e).length ≤ monthsInRange s e := by
  unfold bmsDates monthsInRange
  calc (((List.range' (monthOfDay s) (monthOfDay e + 1 - monthOfDay s)).map
          firstBusinessDayOfMonth).filter
          (fun d => decide (s ≤ d) && decide (d ≤ e))).length
      ≤ ((List.range' (monthOfDay s) (monthOfDay e + 1 - monthOfDay s)).map
          firstBusinessDayOfMonth).length := (List.filter_sublist _).length_le
    _ = monthOfDay e + 1 - monthOfDay s := by
        rw [List.length_map, List.length_range']

theorem bmsDates_length_lower (s e : ℕ) (h : s ≤ e) :
    monthsInRange s e - 2 ≤ (bmsDates s e).length := by
  have hms : monthOfDay s ≤ monthOfDay e := monthOfDay_mono s e h
  have hsub1 : (List.range' (monthOfDay s + 1)
      (monthOfDay e - monthOfDay s - 1)).Sublist
      (List.range' (monthOfDay s) (monthOfDay e + 1 - monthOfDay s)) := by
    have hk : monthOfDay e + 1 - monthOfDay s = (monthOfDay e - monthOfDay s) + 1 := by
      omega
    rw [hk, List.range'_succ]
    exact List.Sublist.cons _ (List.range'_sublist_right.mpr (by omega))
  have hsub2 := hsub1.map firstBusinessDayOfMonth
  have hall : ∀ x ∈ (List.range' (monthOfDay s + 1)
      (monthOfDay e - monthOfDay s - 1)).map firstBusinessDayOfMonth,
      (decide (s ≤ x) && decide (x ≤ e)) = true := by
    intro x hx
    rcases List.mem_map.1 hx with ⟨m, hm, rfl⟩
    rw [List.mem_range'_1] at hm
    have hmlt : m < monthOfDay e := by omega
    simp only [Bool.and_eq_true, decide_eq_true_eq]
    constructor
    · have h1 : s < firstDayOfMonth (monthOfDay s + 1) :=
        lt_firstDayOfMonth_monthOfDay_succ s
      have h2 : firstDayOfMonth (monthOfDay s + 1) ≤ firstDayOfMonth m :=
        firstDayOfMonth_strictMono.monotone (by omega)
      have h3 := firstDayOfMonth_le_fbd m
      omega
    · have h4 := fbd_lt_firstDayOfMonth_succ m
      have h5 : firstDayOfMonth (m + 1) ≤ firstDayOfMonth (monthOfDay e) :=
        firstDayOfMonth_strictMono.monotone (by omega)
      have h6 := firstDayOfMonth_monthOfDay_le e
      omega
  have hsubf : ((List.range' (monthOfDay s + 1)
      (monthOfDay e - monthOfDay s - 1)).map firstBusinessDayOfMonth).Sublist
      (bmsDates s e) := by
    unfold bmsDates
    have heq : ((List.range' (monthOfDay s + 1)
        (monthOfDay e - monthOfDay s - 1)).map firstBusinessDayOfMonth) =
        ((List.range' (monthOfDay s + 1)
          (monthOfDay e - monthOfDay s - 1)).map firstBusinessDayOfMonth).filter
          (fun d => decide (s ≤ d) && decide (d ≤ e)) :=
      (List.filter_eq_self.mpr hall).symm
    rw [heq]
    exact List.Sublist.filter _ hsub2
  have hlen := hsubf.length_le
  rw [List.length_map, List.length_range'] at hlen
  unfold monthsInRange
  omega

theorem bmsDates_eq_nil (s e : ℕ) (h : e < s) : bmsDates s e = [] := by
  unfold bmsDates
  rw [List.filter_eq_nil_iff]
  intro x _
  simp only [Bool.and_eq_true, decide_eq_true_eq, not_and]
  intro hsx
  omega

theorem generate_rebalances_eq (r : MonthlyRebalance) :
    MonthlyRebalance.generate_rebalances r =
      ((bmsDates r.start_date r.end_date).map
        (fun d => addBDay d r.monthday)).map
        (fun d => d * 86400 +
          MonthlyRebalance.marketTimeSec
            (MonthlyRebalance.set_market_time r.pre_market)) := rfl

/-! ### Claim theorems for the Monthly rebalance calendar (monthly.py) -/

/-- Claim C6.  For every `start ≤ end`, the Monthly calendar's event list
is strictly increasing; its number of events is one per calendar month
intersecting the range, up to minus one at each of the two boundaries
(`monthsInRange - 2 ≤ length ≤ monthsInRange`); every event carries the
configured fixed time-of-day; and the pre-market constant (14:30:00) is
strictly earlier than the post-market constant (21:00:00) used when
`pre_market` is false. -/
theorem c6_monthly_calendar_events (r : MonthlyRebalance)
    (h : r.start_date ≤ r.end_date) :
    (MonthlyRebalance.generate_rebalances r).Pairwise (· < ·) ∧
    monthsInRange r.start_date r.end_date - 2 ≤
      (MonthlyRebalance.generate_rebalances r).length ∧
    (MonthlyRebalance.generate_rebalances r).length ≤
      monthsInRange r.start_date r.end_date ∧
    (∀ t ∈ MonthlyRebalance.generate_rebalances r, t % 86400 =
      MonthlyRebalance.marketTimeSec
        (MonthlyRebalance.set_market_time r.pre_market)) ∧
    MonthlyRebalance.marketTimeSec (MonthlyRebalance.set_market_time true) <
      MonthlyRebalance.marketTimeSec (MonthlyRebalance.set_market_time false) := by
  refine ⟨?_, ?_, ?_, ?_, by decide⟩
  · rw [generate_rebalances_eq, List.pairwise_map, List.pairwise_map]
    have hp := bmsDates_pairwise r.start_date r.end_date
    have hb : ∀ x ∈ bmsDates r.start_date r.end_date, isBday x = true :=
      fun x hx => (mem_bmsDates _ _ x hx).1
    refine List.Pairwise.imp_of_mem ?_ hp
    intro a b ha hbm hab
    have := addBDay_strict r.monthday a b hab (hb a ha) (hb b hbm)
    omega
  · rw [generate_rebalances_eq, List.length_map, List.length_map]
    exact bmsDates_length_lower _ _ h
  · rw [generate_rebalances_eq, List.length_map, List.length_map]
    exact bmsDates_length_le _ _
  · intro t ht
    rw [generate_rebalances_eq] at ht
    rcases List.mem_map.1 ht with ⟨d, _, rfl⟩
    have hc : MonthlyRebalance.marketTimeSec
        (MonthlyRebalance.set_market_time r.pre_market) < 86400 := by
      cases r.pre_market <;> decide
    omega

/-- Witness for C6 at a concrete calendar: days 0-65 of year 0 (which span
three months), `monthday = 1`, post-market times. -/
theorem c6_monthly_calendar_events_witness :
    (MonthlyRebalance.mk 0 65 1 false).start_date ≤
      (MonthlyRebalance.mk 0 65 1 false).end_date ∧
    ((MonthlyRebalance.generate_rebalances
        (MonthlyRebalance.mk 0 65 1 false)).Pairwise (· < ·) ∧
     monthsInRange (MonthlyRebalance.mk 0 65 1 false).start_date
        (MonthlyRebalance.mk 0 65 1 false).end_date - 2 ≤
       (MonthlyRebalance.generate_rebalances
         (MonthlyRebalance.mk 0 65 1 false)).length ∧
     (MonthlyRebalance.generate_rebalances
         (MonthlyRebalance.mk 0 65 1 false)).length ≤
       monthsInRange (MonthlyRebalance.mk 0 65 1 false).start_date
         (MonthlyRebalance.mk 0 65 1 false).end_date ∧
     (∀ t ∈ MonthlyRebalance.generate_rebalances
         (MonthlyRebalance.mk 0 65 1 false), t % 86400 =
       MonthlyRebalance.marketTimeSec (MonthlyRebalance.set_market_time
         (MonthlyRebalance.mk 0 65 1 false).pre_market)) ∧
     MonthlyRebalance.marketTimeSec (MonthlyRebalance.set_market_time true) <
       MonthlyRebalance.marketTimeSec (MonthlyRebalance.set_market_time false)) :=
  ⟨by decide, c6_monthly_calendar_events (MonthlyRebalance.mk 0 65 1 false)
    (by decide)⟩

/-- Claim C7.  For every pair of dates with `end < start`, calendar
generation returns the empty list of rebalance timestamps (rather than
raising an error — `generate_rebalances` is a total function). -/
theorem c7_inverted_range_empty (r : MonthlyRebalance)
    (h : r.end_date < r.start_date) :
    MonthlyRebalance.generate_rebalances r = [] := by
  rw [generate_rebalances_eq, bmsDates_eq_nil _ _ h]
  rfl

/-- Witness for C7: end day 5 before start day 10 yields the empty
calendar. -/
theorem c7_inverted_range_empty_witness :
    (MonthlyRebalance.mk 10 5 0 false).end_date <
      (MonthlyRebalance.mk 10 5 0 false).start_date ∧
    MonthlyRebalance.generate_rebalances (MonthlyRebalance.mk 10 5 0 false) = [] :=
  ⟨by decide, c7_inverted_range_empty (MonthlyRebalance.mk 10 5 0 false)
    (by decide)⟩
